import Mathlib

/-!
Verification of the `govuk-rewrite` repository against its natural-language
specification.

The development shallowly embeds the TypeScript sources:

* `packages/cli/src/chat-input.ts` (line-ending normalization, first-slash-token
  extraction),
* `packages/cli/src/chat-commands.ts` (the chat command processor),
* `packages/cli/src/chat-session.ts` (`handleSubmittedInput`),
* `packages/cli/src/errors.ts` (missing-API-key error lines),
* `packages/cli/src/output.ts` (output-mode selection, the json object of
  `formatOutput`, the LCS line diff),
* `packages/cli/src/config.ts` (`resolveConfig`),
* `packages/cli/src/setup.ts` (`buildConfigToPersist`, the persisting tail of
  `runSetup`),
* `packages/core/src/validation.ts` (`normaliseEngineOptions`) and
  `packages/core/src/defaults.ts` (`DEFAULT_MODELS`, `DEFAULT_TIMEOUT_MS`).

JavaScript string semantics are modelled on `List Char`: `String.prototype.trim`
/ `trimStart` with the usual whitespace class, `replace(/\r\n/g ...)` as a
character-list rewrite, and truthiness of optional strings / numbers as
explicit `js...` helpers.
-/

namespace GovukRewrite

/-! ## JavaScript string primitives -/

/-- The whitespace class used by JS `trim`, `trimStart` and `\s`:
space, tab, LF, CR, VT, FF, NBSP, BOM. -/
def isJsWs (c : Char) : Bool :=
  c = ' ' || c = '\t' || c = '\n' || c = '\r' ||
    c = Char.ofNat 11 || c = Char.ofNat 12 || c = Char.ofNat 0xa0 || c = Char.ofNat 0xfeff

def jsTrimStartL (l : List Char) : List Char := l.dropWhile isJsWs

def jsTrimEndL (l : List Char) : List Char := (l.reverse.dropWhile isJsWs).reverse

def jsTrimL (l : List Char) : List Char := jsTrimEndL (jsTrimStartL l)

/-- JS `s.trim()`. -/
def jsTrim (s : String) : String := ⟨jsTrimL s.data⟩

/-- JS `s.trimStart()`. -/
def jsTrimStart (s : String) : String := ⟨jsTrimStartL s.data⟩

/-- JS `s.toLowerCase()` (ASCII case mapping, which covers every string the
embedded code compares after lowercasing). -/
def jsToLower (s : String) : String := ⟨s.data.map Char.toLower⟩

/-- `text.replace(/\r\n/g, "\n").replace(/\r/g, "\n")` as one pass over the
characters: a CRLF pair becomes one LF, a lone CR becomes LF. -/
def normChars : List Char → List Char
  | [] => []
  | '\r' :: '\n' :: rest => '\n' :: normChars rest
  | '\r' :: rest => '\n' :: normChars rest
  | c :: rest => c :: normChars rest

/-- `normalizeLineEndings` from `chat-input.ts`. -/
def normalizeLineEndings (s : String) : String := ⟨normChars s.data⟩

/-- `isMultiline` from `chat-input.ts`: `text.includes("\n")`. -/
def isMultiline (s : String) : Bool := s.data.contains '\n'

/-- The first segment of `s` before a `\n`, i.e. JS `s.split("\n", 1)[0]`. -/
def firstLineStr (s : String) : String := ⟨s.data.takeWhile (fun c => c != '\n')⟩

/-- JS `s.startsWith(p)`. -/
def strStartsWith (s p : String) : Bool := p.data.isPrefixOf s.data

/-- Is `p` a contiguous sublist of `l`? (`p` is a prefix of some suffix.) -/
def listInfixOf (p : List Char) : List Char → Bool
  | [] => p.isEmpty
  | l@(_ :: tail) => p.isPrefixOf l || listInfixOf p tail

/-- JS `s.includes(sub)` (substring containment). -/
def containsSubstr (s sub : String) : Bool := listInfixOf sub.data s.data

/-- Truthiness of a JS `string | undefined` value: defined and non-empty. -/
def jsTruthyOptStr : Option String → Bool
  | none => false
  | some s => s != ""

/-- Truthiness of a JS `number | undefined` value (integral case): defined and
non-zero. -/
def jsTruthyOptInt : Option Int → Bool
  | none => false
  | some t => t != 0

/-! ## Core enums and defaults (`packages/core`) -/

inductive Provider
  | openai
  | anthropic
  | openrouter
deriving DecidableEq, Repr

def Provider.toStr : Provider → String
  | .openai => "openai"
  | .anthropic => "anthropic"
  | .openrouter => "openrouter"

inductive ContentMode
  | pageBody
  | errorMessage
  | hintText
  | notificationMode
  | button
  | heading
  | formLabel
deriving DecidableEq, Repr

def ContentMode.toStr : ContentMode → String
  | .pageBody => "page-body"
  | .errorMessage => "error-message"
  | .hintText => "hint-text"
  | .notificationMode => "notification"
  | .button => "button"
  | .heading => "heading"
  | .formLabel => "form-label"

/-- `DEFAULT_TIMEOUT_MS` from `packages/core/src/defaults.ts`. -/
def DEFAULT_TIMEOUT_MS : Int := 30000

/-- `DEFAULT_MODELS` from `packages/core/src/defaults.ts` (a total record over
the provider enum). -/
def DEFAULT_MODELS : Provider → String
  | .openai => "gpt-4.1-mini"
  | .anthropic => "claude-3-5-sonnet-latest"
  | .openrouter => "openai/gpt-4.1-mini"

/-- `VALID_PROVIDERS` from `packages/cli/src/constants.ts`. -/
def VALID_PROVIDERS : List Provider := [.openai, .anthropic, .openrouter]

/-- `VALID_MODES` from `packages/cli/src/constants.ts`. -/
def VALID_MODES : List ContentMode :=
  [.pageBody, .errorMessage, .hintText, .notificationMode, .button, .heading, .formLabel]

/-- `VALID_PROVIDERS.includes(value)` for an arbitrary string, as used by
`toProvider` in `config.ts` and the `/provider` command: the parse succeeds
exactly on the three provider literals. -/
def providerFromString (value : String) : Option Provider :=
  if value = "openai" then some .openai
  else if value = "anthropic" then some .anthropic
  else if value = "openrouter" then some .openrouter
  else none

/-- `VALID_MODES.includes(value)` for an arbitrary string. -/
def modeFromString (value : String) : Option ContentMode :=
  if value = "page-body" then some .pageBody
  else if value = "error-message" then some .errorMessage
  else if value = "hint-text" then some .hintText
  else if value = "notification" then some .notificationMode
  else if value = "button" then some .button
  else if value = "heading" then some .heading
  else if value = "form-label" then some .formLabel
  else none

def providersJoined (sep : String) : String :=
  String.intercalate sep (VALID_PROVIDERS.map Provider.toStr)

def modesJoined (sep : String) : String :=
  String.intercalate sep (VALID_MODES.map ContentMode.toStr)

/-! ## `errors.ts`: missing-API-key error lines -/

structure KeyInfo where
  envVar : String
  link : String
deriving DecidableEq

/-- `KEY_INFO` from `errors.ts`. -/
def KEY_INFO : Provider → KeyInfo
  | .openai => ⟨"OPENAI_API_KEY", "https://platform.openai.com/api-keys"⟩
  | .anthropic => ⟨"ANTHROPIC_API_KEY", "https://console.anthropic.com/settings/keys"⟩
  | .openrouter => ⟨"OPENROUTER_API_KEY", "https://openrouter.ai/keys"⟩

/-- `buildMissingApiKeyErrorLines` from `errors.ts`. -/
def buildMissingApiKeyErrorLines (provider : Provider) : List String :=
  [ "Error: no API key found for provider \"" ++ provider.toStr ++ "\".",
    "",
    "Set the " ++ (KEY_INFO provider).envVar ++ " environment variable:",
    "  export " ++ (KEY_INFO provider).envVar ++ "=your-key-here",
    "",
    "Get a key at: " ++ (KEY_INFO provider).link,
    "",
    "Using a different provider? Pass --provider openai | anthropic | openrouter",
    "" ]

/-! ## `chat-input.ts`: first slash token -/

/-- `firstSlashToken` from `chat-input.ts`: take the first line of the
normalized text, left-trim it; if it starts with `/`, the token is the
lowercased run of non-whitespace characters after the slash (JS
`slice(1).split(/\s+/, 1)[0]`, which is empty when a whitespace character
follows the slash); an empty token yields `null`. -/
def firstSlashToken (text : String) : Option String :=
  let firstLine := jsTrimStart (firstLineStr (normalizeLineEndings text))
  if strStartsWith firstLine "/" then
    let token := jsToLower ⟨(firstLine.data.drop 1).takeWhile (fun c => !isJsWs c)⟩
    if token = "" then none else some token
  else none

/-! ## `chat-commands.ts`: the chat command processor -/

structure ChatState where
  provider : Provider
  model : String
  timeoutMs : Int
  baseUrl : Option String := none
  mode : ContentMode
  context : Option String := none
  explain : Bool
  check : Bool
  diff : Bool
  json : Bool
  spinner : Bool
  copy : Bool
  tokens : Bool
deriving DecidableEq

structure ChatCommandResult where
  state : ChatState
  messages : List String
  quit : Bool
deriving DecidableEq

structure ChatCommandDefinition where
  name : String
  usage : Option String := none
  hint : Option String := none
  description : String

/-- `CHAT_COMMAND_DEFINITIONS` from `chat-commands.ts` (hints included for
completeness; only `name`, `usage` and `description` matter below). -/
def CHAT_COMMAND_DEFINITIONS : List ChatCommandDefinition :=
  [ { name := "help", description := "Show available commands" },
    { name := "provider",
      usage := some ("<" ++ providersJoined "|" ++ ">"),
      hint := some ("Choose a provider: " ++ providersJoined ", "),
      description := "Set provider and reset model" },
    { name := "model",
      usage := some "<name>",
      hint := some "Type a model name, e.g. gpt-4.1-mini or claude-3-5-haiku-latest",
      description := "Set model" },
    { name := "mode",
      usage := some ("<" ++ modesJoined "|" ++ ">"),
      hint := some ("Choose a mode: " ++ modesJoined ", "),
      description := "Set rewrite mode" },
    { name := "context",
      usage := some "<text|clear>",
      hint := some "Type context text describing your service or audience, or 'clear' to remove it",
      description := "Set context text or clear it" },
    { name := "explain",
      usage := some "on|off",
      hint := some "Type on to include bullet explanations of changes, or off to disable",
      description := "Toggle explanation output" },
    { name := "check",
      usage := some "on|off",
      hint := some "Type on to audit style only without rewriting, or off to disable",
      description := "Toggle check mode" },
    { name := "diff",
      usage := some "on|off",
      hint := some "Type on to show a line-by-line diff, or off to disable",
      description := "Toggle diff output" },
    { name := "json",
      usage := some "on|off",
      hint := some "Type on for machine-readable JSON output, or off to disable",
      description := "Toggle JSON output" },
    { name := "tokens",
      usage := some "on|off",
      hint := some "Type on to show input and output token counts after each request, or off to hide",
      description := "Show input/output token counts" },
    { name := "show", description := "Show active settings" },
    { name := "quit", description := "Exit interactive mode" } ]

/-- `KNOWN_CHAT_COMMANDS`: the set of definition names. -/
def KNOWN_CHAT_COMMANDS : List String := CHAT_COMMAND_DEFINITIONS.map (·.name)

/-- `isKnownChatCommand` from `chat-commands.ts`. -/
def isKnownChatCommand (token : String) : Bool :=
  KNOWN_CHAT_COMMANDS.contains (jsToLower (jsTrim token))

/-- `parseToggle` from `chat-commands.ts` (exactly the literals `on` / `off`). -/
def parseToggle (value : String) : Option Bool :=
  if value = "on" then some true
  else if value = "off" then some false
  else none

def formatCommandLabel (d : ChatCommandDefinition) : String :=
  "/" ++ d.name ++ (match d.usage with | some u => " " ++ u | none => "")

/-- JS `s.padEnd(n)`. -/
def padEnd (s : String) (n : Nat) : String :=
  s ++ ⟨List.replicate (n - s.data.length) ' '⟩

/-- `helpText` from `chat-commands.ts`. -/
def helpText : String :=
  let commandColumnWidth :=
    CHAT_COMMAND_DEFINITIONS.foldl (fun m d => max m (formatCommandLabel d).data.length) 0
  String.intercalate "\n"
    ("Commands:" ::
      CHAT_COMMAND_DEFINITIONS.map (fun d =>
        "  " ++ padEnd (formatCommandLabel d) (commandColumnWidth + 2) ++ d.description))

def onOff (b : Bool) : String := if b then "on" else "off"

/-- `stateSummary` from `chat-commands.ts`. -/
def stateSummary (state : ChatState) : List String :=
  [ "provider: " ++ state.provider.toStr,
    "model: " ++ state.model,
    "mode: " ++ state.mode.toStr,
    "context: " ++ state.context.getD "(none)",
    "explain: " ++ onOff state.explain,
    "check: " ++ onOff state.check,
    "diff: " ++ onOff state.diff,
    "json: " ++ onOff state.json,
    "copy: " ++ onOff state.copy,
    "tokens: " ++ onOff state.tokens,
    "spinner: " ++ onOff state.spinner ]

/-- One `on|off` toggle arm of the command switch. -/
def toggleCommand (state : ChatState) (arg usageMsg okName : String)
    (setter : ChatState → Bool → ChatState) (enabledWord disabledWord : String) :
    ChatCommandResult :=
  match parseToggle arg with
  | none => ⟨state, [usageMsg], false⟩
  | some toggle =>
    ⟨setter state toggle,
      [okName ++ " " ++ (if toggle then enabledWord else disabledWord) ++ "."], false⟩

/-- `applyChatCommand` from `chat-commands.ts`: trim, require a leading `/`,
split the command word at the first space (lowercased), trim the remainder as
the single argument, then dispatch. -/
def applyChatCommand (input : String) (state : ChatState) : ChatCommandResult :=
  let trimmed := jsTrim input
  if !strStartsWith trimmed "/" then ⟨state, [], false⟩
  else
    let withoutSlash : List Char := trimmed.data.drop 1
    -- `indexOf(" ")`: the command is the run before the first space, the
    -- argument is everything after it (trimmed); no space means no argument.
    let command := jsToLower ⟨withoutSlash.takeWhile (fun c => c != ' ')⟩
    let arg :=
      match withoutSlash.dropWhile (fun c => c != ' ') with
      | [] => ""
      | _ :: tail => jsTrim ⟨tail⟩
    match command with
    | "help" => ⟨state, [helpText], false⟩
    | "quit" => ⟨state, ["Exiting interactive mode."], true⟩
    | "show" => ⟨state, stateSummary state, false⟩
    | "provider" =>
      match providerFromString arg with
      | none =>
        ⟨state, ["Invalid provider. Valid values: " ++ providersJoined ", "], false⟩
      | some provider =>
        let nextState := { state with provider := provider, model := DEFAULT_MODELS provider }
        ⟨nextState,
          ["Provider set to " ++ provider.toStr ++ ". Model reset to " ++ nextState.model ++ "."],
          false⟩
    | "model" =>
      if arg = "" then ⟨state, ["Usage: /model <name>"], false⟩
      else ⟨{ state with model := arg }, ["Model set to " ++ arg ++ "."], false⟩
    | "mode" =>
      match modeFromString arg with
      | none => ⟨state, ["Invalid mode. Valid values: " ++ modesJoined ", "], false⟩
      | some mode => ⟨{ state with mode := mode }, ["Mode set to " ++ mode.toStr ++ "."], false⟩
    | "context" =>
      if arg = "" then ⟨state, ["Usage: /context <text> or /context clear"], false⟩
      else if jsToLower arg = "clear" then
        ⟨{ state with context := none }, ["Context cleared."], false⟩
      else ⟨{ state with context := some arg }, ["Context updated."], false⟩
    | "explain" =>
      toggleCommand state arg "Usage: /explain on|off" "Explain"
        (fun s b => { s with explain := b }) "enabled" "disabled"
    | "check" =>
      toggleCommand state arg "Usage: /check on|off" "Check mode"
        (fun s b => { s with check := b }) "enabled" "disabled"
    | "diff" =>
      toggleCommand state arg "Usage: /diff on|off" "Diff output"
        (fun s b => { s with diff := b }) "enabled" "disabled"
    | "json" =>
      toggleCommand state arg "Usage: /json on|off" "JSON output"
        (fun s b => { s with json := b }) "enabled" "disabled"
    | "tokens" =>
      toggleCommand state arg "Usage: /tokens on|off" "Token counts"
        (fun s b => { s with tokens := b }) "enabled" "disabled"
    | _ => ⟨state, ["Unknown command. Run /help to see supported commands."], false⟩

/-! ## `output.ts`: output mode, json object, line diff -/

inductive OutputMode
  | plain
  | explain
  | json
  | diff
  | check
deriving DecidableEq, Repr

structure OutputFlags where
  explain : Bool := false
  diff : Bool := false
  check : Bool := false
  json : Bool := false
deriving DecidableEq

/-- `selectOutputMode` from `output.ts`: fixed precedence
json > check > diff > explain > plain. -/
def selectOutputMode (flags : OutputFlags) : OutputMode :=
  if flags.json then .json
  else if flags.check then .check
  else if flags.diff then .diff
  else if flags.explain then .explain
  else .plain

structure Usage where
  inputTokens : Nat
  outputTokens : Nat
deriving DecidableEq

structure RewriteResult where
  rewrittenText : String
  explanation : Option (List String) := none
  issues : Option (List String) := none
  usage : Option Usage := none
deriving DecidableEq

inductive JsonVal
  | jstr (v : String)
  | jlist (vs : List String)
  | jbool (v : Bool)
deriving DecidableEq

/-- The object literal passed to `JSON.stringify` in the `json` branch of
`formatOutput` (`output.ts`), as an ordered field list:
`{ rewrittenText, explanation ?? [], issues ?? [], provider, model }`. -/
def formatOutputJsonObject (result : RewriteResult) (provider : Provider) (model : String) :
    List (String × JsonVal) :=
  [ ("rewrittenText", .jstr result.rewrittenText),
    ("explanation", .jlist (result.explanation.getD [])),
    ("issues", .jlist (result.issues.getD [])),
    ("provider", .jstr provider.toStr),
    ("model", .jstr model) ]

/-- Modelled from the spec: the implementation of `detectNoImprovement` in
`packages/cli/src/output.ts` is not part of the source snapshot (only its unit
tests and its call site in `chat-session.ts` are). Spec section 4.7: "false
unconditionally when check mode is active (issues lists are never 'no
improvement'); otherwise compare `original` and `rewritten` after trimming and
normalizing all line endings — equal implies true". -/
def detectNoImprovement (original rewritten : String) (checkModeActive : Bool) : Bool :=
  if checkModeActive then false
  else jsTrim (normalizeLineEndings original) == jsTrim (normalizeLineEndings rewritten)

/-- JS `s.split("\n")` (the split in `diffLines`): split the character list on
every newline; the empty string yields one empty segment. -/
def jsSplitLines (s : String) : List String :=
  (s.data.splitOn '\n').map (fun l => (⟨l⟩ : String))

/-- The LCS table of `diffLines` (`output.ts`): `lcsTab a b i j` is
`lcs[i][j]`, the LCS length of the first `i` lines of `a` and the first `j`
lines of `b`, computed by the same recurrence as the dynamic-programming
table (`a[i-1] === b[j-1] ? lcs[i-1][j-1]+1 : max(lcs[i-1][j], lcs[i][j-1])`). -/
def lcsTab (a b : List String) : Nat → Nat → Nat
  | 0, _ => 0
  | _ + 1, 0 => 0
  | i + 1, j + 1 =>
    if a.getD i "" = b.getD j "" then lcsTab a b i j + 1
    else max (lcsTab a b i (j + 1)) (lcsTab a b (i + 1) j)
termination_by i j => i + j

inductive DiffTag
  | same
  | add
  | del
deriving DecidableEq, Repr

def tagMark : DiffTag → String
  | .same => "  "
  | .add => "+ "
  | .del => "- "

/-- The backtracking `while` loop of `diffLines` (`output.ts`), written as a
recursion that returns the diff of the first `i` lines of `a` against the
first `j` lines of `b` (the loop's `unshift` onto the front corresponds to
appending on the way back up):

* both sides remaining and last lines equal: an unchanged line;
* else if `j > 0 && (i === 0 || lcs[i][j-1] >= lcs[i-1][j])`: an added line;
* else: a removed line. -/
def diffBack (a b : List String) (i j : Nat) : List (DiffTag × String) :=
  if h0 : i = 0 ∧ j = 0 then []
  else if h1 : 0 < i ∧ 0 < j ∧ a.getD (i - 1) "" = b.getD (j - 1) "" then
    diffBack a b (i - 1) (j - 1) ++ [(DiffTag.same, a.getD (i - 1) "")]
  else if h2 : 0 < j ∧ (i = 0 ∨ lcsTab a b (i - 1) j ≤ lcsTab a b i (j - 1)) then
    diffBack a b i (j - 1) ++ [(DiffTag.add, b.getD (j - 1) "")]
  else
    diffBack a b (i - 1) j ++ [(DiffTag.del, a.getD (i - 1) "")]
termination_by i + j
decreasing_by
  · obtain ⟨hi, hj, -⟩ := h1
    omega
  · obtain ⟨hj, -⟩ := h2
    omega
  · have hi : 0 < i := by
      rcases Nat.eq_zero_or_pos i with h3 | h3
      · exact absurd ⟨Nat.pos_of_ne_zero fun hj => h0 ⟨h3, hj⟩, Or.inl h3⟩ h2
      · exact h3
    omega

def renderDiffLine (x : DiffTag × String) : String := tagMark x.1 ++ x.2

/-- The ordered list of rendered diff lines produced by `diffLines`
(`output.ts`): split both inputs on newlines, run the LCS backtrack over the
full line arrays, and prefix each line with `"  "`, `"+ "` or `"- "`. -/
def diffLinesList (original rewritten : String) : List String :=
  let a := jsSplitLines original
  let b := jsSplitLines rewritten
  (diffBack a b a.length b.length).map renderDiffLine

/-- `diffLines` from `output.ts` (the rendered lines joined with newlines). -/
def diffLines (original rewritten : String) : String :=
  String.intercalate "\n" (diffLinesList original rewritten)

/-! ## `chat-session.ts`: `handleSubmittedInput` -/

inductive EventKind
  | assistant
  | system
  | error
  | success
deriving DecidableEq, Repr

structure ChatSessionEvent where
  kind : EventKind
  text : String
deriving DecidableEq

structure ChatSubmitResult where
  state : ChatState
  events : List ChatSessionEvent
  shouldExit : Bool
deriving DecidableEq

/-- The classification prefix of `handleSubmittedInput`
(`chat-session.ts` lines 181-215): empty input is a no-op; a first-slash token
with (single-line input or a recognized token) hands the first line only to the
command processor; a single-line input whose trimmed text starts with `/`
without a token also goes to the command processor; everything else is rewrite
payload. In the token branch's `else` the input is necessarily multi-line, so
the second (single-line) command branch of the source cannot fire there. -/
inductive SubmitAction
  | empty
  | command (line : String)
  | payload (text : String)
deriving DecidableEq

def classifySubmittedInput (inputText : String) : SubmitAction :=
  let trimmed := jsTrim inputText
  if trimmed = "" then .empty
  else
    let normalizedInput := normalizeLineEndings inputText
    let hasNewline := isMultiline normalizedInput
    match firstSlashToken normalizedInput with
    | some tok =>
      if !hasNewline || isKnownChatCommand tok then
        .command (if hasNewline then jsTrim (firstLineStr normalizedInput) else trimmed)
      else .payload trimmed
    | none =>
      if !hasNewline && strStartsWith trimmed "/" then .command trimmed
      else .payload trimmed

/-- `ResolvedConfig` from `config.ts`. -/
structure ResolvedConfig where
  provider : Provider
  model : String
  timeoutMs : Int
  baseUrl : Option String := none
  apiKey : Option String := none
deriving DecidableEq

/-- The `RewriteRequest` built by the rewrite call in `handleSubmittedInput`. -/
structure RewriteRequest where
  text : String
  explain : Bool
  check : Bool
  context : Option String
  mode : ContentMode
deriving DecidableEq

/-- The engine options passed alongside the request. -/
structure RewriteCallOptions where
  provider : Provider
  apiKey : String
  model : String
  timeoutMs : Int
  baseUrl : Option String
deriving DecidableEq

/-- The argument record `handleSubmittedInput` passes to its output formatter
dependency (`{ result, mode, provider, model, originalText, checkMode }`). -/
structure FormatCall where
  result : RewriteResult
  mode : OutputMode
  provider : Provider
  model : String
  originalText : String
  checkMode : Bool

/-- The injected dependencies and ambient effects of `handleSubmittedInput`
(`ChatSessionDeps` plus the process environment), made explicit:

* `resolveApiKey1` / `resolveApiKey2`: the `resolveApiKey` dependency as
  observed at its first and second call (the interactive setup run in between
  may change the process environment);
* `setupRan` / `setupLines`: the result of the `setupRunner` dependency and the
  lines it wrote through the collecting `writeLine`;
* `refreshedConfig`: the value `configResolver(options.overrides)` returns when
  called after a setup run;
* `rewriteImpl`: the rewrite dependency; a thrown error is its message;
* `outputFormatter`: the output-formatting dependency (defaulted in the source
  to `formatOutput`);
* `clipboardWriter`: the clipboard dependency (returns whether the copy
  succeeded). -/
structure SessionEnv where
  resolveApiKey1 : Provider → Option String
  setupRan : Bool
  setupLines : List String
  refreshedConfig : ResolvedConfig
  resolveApiKey2 : Provider → Option String
  rewriteImpl : RewriteRequest → RewriteCallOptions → Except String RewriteResult
  outputFormatter : FormatCall → String
  clipboardWriter : String → Bool

/-- The non-blank missing-key error lines as `error` events
(`chat-session.ts` lines 254-259). -/
def missingKeyErrorEvents (p : Provider) : List ChatSessionEvent :=
  ((buildMissingApiKeyErrorLines p).filter (fun l => jsTrim l != "")).map
    (fun l => ⟨.error, l⟩)

/-- The `try { rewrite ... }` block of `handleSubmittedInput`
(`chat-session.ts` lines 267-320): call the rewrite dependency, detect
no-improvement, emit a `success` or `assistant` event, optionally a token-count
`system` event and a clipboard `system` event; a thrown error becomes one
`error` event. `pre` holds the events already emitted by the bootstrap. -/
def doRewrite (text : String) (st : ChatState) (apiKey : String) (env : SessionEnv)
    (pre : List ChatSessionEvent) : ChatSubmitResult :=
  match env.rewriteImpl
      { text := text, explain := st.explain, check := st.check,
        context := st.context, mode := st.mode }
      { provider := st.provider, apiKey := apiKey, model := st.model,
        timeoutMs := st.timeoutMs, baseUrl := st.baseUrl } with
  | .error msg =>
    ⟨st, pre ++ [⟨.error, "Error: " ++ msg⟩], false⟩
  | .ok result =>
    let noImprovement := detectNoImprovement text result.rewrittenText st.check
    let mainEvents :=
      if noImprovement then
        [(⟨.success,
          "No improvement suggested. The text is already close to GOV.UK style."⟩ :
            ChatSessionEvent)]
      else
        [(⟨.assistant,
          env.outputFormatter
            { result := result,
              mode := selectOutputMode
                { explain := st.explain, diff := st.diff, check := st.check, json := st.json },
              provider := st.provider, model := st.model,
              originalText := text, checkMode := st.check }⟩ : ChatSessionEvent)]
    let tokenEvents :=
      match result.usage with
      | some usage =>
        if st.tokens then
          [(⟨.system,
            "tokens: " ++ toString usage.inputTokens ++ " in / " ++
              toString usage.outputTokens ++ " out"⟩ : ChatSessionEvent)]
        else []
      | none => []
    let copyEvents :=
      if st.copy && !st.check then
        if env.clipboardWriter result.rewrittenText then
          [(⟨.system, "(copied to clipboard)"⟩ : ChatSessionEvent)]
        else []
      else []
    ⟨st, pre ++ mainEvents ++ tokenEvents ++ copyEvents, false⟩

/-- The payload path of `handleSubmittedInput` (`chat-session.ts` lines
217-326): resolve the API key; when absent, run the setup offer, emit its
non-blank lines as `system` events, refresh model/timeout/baseUrl from the
re-resolved config when setup ran and the provider is unchanged, and resolve
the key again; when still absent, emit the missing-key `error` events and
return without calling the rewrite dependency; otherwise run the rewrite. -/
def handlePayload (text : String) (state : ChatState) (env : SessionEnv) : ChatSubmitResult :=
  let key1 := env.resolveApiKey1 state.provider
  if jsTruthyOptStr key1 then doRewrite text state (key1.getD "") env []
  else
    let preEvents :=
      (env.setupLines.filter (fun l => jsTrim l != "")).map
        (fun l => (⟨.system, l⟩ : ChatSessionEvent))
    let nextState :=
      if env.setupRan && decide (env.refreshedConfig.provider = state.provider) then
        { state with
            model := env.refreshedConfig.model,
            timeoutMs := env.refreshedConfig.timeoutMs,
            baseUrl := env.refreshedConfig.baseUrl }
      else state
    let key2 := env.resolveApiKey2 nextState.provider
    if jsTruthyOptStr key2 then doRewrite text nextState (key2.getD "") env preEvents
    else
      ⟨nextState, preEvents ++ missingKeyErrorEvents nextState.provider, false⟩

/-- `handleSubmittedInput` from `chat-session.ts`, with its effectful
dependencies supplied by a `SessionEnv`: classify the input, run the command
processor on the command line (its messages becoming `system` events and its
quit flag the exit signal), or run the payload path. -/
def handleSubmittedInputModel (inputText : String) (state : ChatState) (env : SessionEnv) :
    ChatSubmitResult :=
  match classifySubmittedInput inputText with
  | .empty => ⟨state, [], false⟩
  | .command line =>
    let c := applyChatCommand line state
    ⟨c.state, c.messages.map (fun m => ⟨.system, m⟩), c.quit⟩
  | .payload text => handlePayload text state env

/-! ## `config.ts`: `resolveConfig` -/

/-- The validated partial configuration produced by `loadConfigFile` /
`loadEnvVars` in `config.ts`: each loader only stores a key when the value
passed its check (a valid provider string; a truthy model / baseUrl string; a
parseable number), so a stored provider is already a member of the enum. -/
structure TierConfig where
  provider : Option Provider := none
  model : Option String := none
  timeoutMs : Option Int := none
  baseUrl : Option String := none
deriving DecidableEq

/-- `CliOverrides` from `config.ts` (the `config` path override plays no role
in the merge itself). -/
structure CliOverrides where
  provider : Option String := none
  model : Option String := none
  timeout : Option Int := none
deriving DecidableEq

/-- `toProvider` from `config.ts`. -/
def toProvider : Option String → Option Provider
  | some v => providerFromString v
  | none => none

/-- `resolveConfig` from `config.ts` (lines 80-110), as a pure function of the
already-loaded file and environment snapshots (spec section 9 prescribes
exactly this factoring) and of the per-provider API-key environment lookup:

1. spread-merge `{...defaults, ...fileConfig, ...envConfig}` (a key overrides
   when present);
2. apply CLI overrides under JS truthiness (`toProvider` for the provider);
3. if no tier supplied a model (`fileConfig.model ?? envConfig.model ??
   cliOverrides.model` is falsy), replace the model with the merged provider's
   default;
4. resolve the API key for the merged provider. -/
def resolveConfig (fileConfig envConfig : TierConfig) (cli : CliOverrides)
    (envApiKey : Provider → Option String) : ResolvedConfig :=
  let mergedProvider0 := envConfig.provider.getD (fileConfig.provider.getD .openai)
  let mergedModel0 := envConfig.model.getD (fileConfig.model.getD (DEFAULT_MODELS .openai))
  let mergedTimeout0 := envConfig.timeoutMs.getD (fileConfig.timeoutMs.getD DEFAULT_TIMEOUT_MS)
  let mergedBaseUrl := envConfig.baseUrl <|> fileConfig.baseUrl
  let provider1 :=
    match toProvider cli.provider with
    | some p => p
    | none => mergedProvider0
  let model1 := if jsTruthyOptStr cli.model then cli.model.getD "" else mergedModel0
  let timeout1 := if jsTruthyOptInt cli.timeout then cli.timeout.getD 0 else mergedTimeout0
  let modelExplicitlySet := fileConfig.model <|> envConfig.model <|> cli.model
  let model2 := if jsTruthyOptStr modelExplicitlySet then model1 else DEFAULT_MODELS provider1
  { provider := provider1, model := model2, timeoutMs := timeout1,
    baseUrl := mergedBaseUrl, apiKey := envApiKey provider1 }

/-! Claim-side readings for C6 (the "highest tier that validly set the value"
interpretation of the four-tier merge, written from the claim's words). -/

/-- C6's reading for `provider`: the CLI flag when it parses as a provider,
else the environment, else the file, else the built-in default. -/
def c6ClaimProvider (fileConfig envConfig : TierConfig) (cli : CliOverrides) : Provider :=
  match toProvider cli.provider with
  | some p => p
  | none => envConfig.provider.getD (fileConfig.provider.getD .openai)

/-- C6's reading for `model`: the CLI flag when truthy, else the environment,
else the file, else the defaults-tier model (the openai default model, which is
what the `defaults` object of `resolveConfig` contains). -/
def c6ClaimModel (fileConfig envConfig : TierConfig) (cli : CliOverrides) : String :=
  if jsTruthyOptStr cli.model then cli.model.getD ""
  else envConfig.model.getD (fileConfig.model.getD (DEFAULT_MODELS .openai))

/-- C6's reading for `timeoutMs`. -/
def c6ClaimTimeout (fileConfig envConfig : TierConfig) (cli : CliOverrides) : Int :=
  if jsTruthyOptInt cli.timeout then cli.timeout.getD 0
  else envConfig.timeoutMs.getD (fileConfig.timeoutMs.getD DEFAULT_TIMEOUT_MS)

/-- C6's reading for `baseUrl` (no CLI flag and no built-in default exist for
it): the environment, else the file, else nothing. -/
def c6ClaimBaseUrl (fileConfig envConfig : TierConfig) : Option String :=
  envConfig.baseUrl <|> fileConfig.baseUrl

/-- The whole C6 claim as stated: every one of the four fields equals the value
of the highest tier that validly set it. -/
def c6ClaimHolds (fileConfig envConfig : TierConfig) (cli : CliOverrides)
    (envApiKey : Provider → Option String) : Prop :=
  (resolveConfig fileConfig envConfig cli envApiKey).provider
      = c6ClaimProvider fileConfig envConfig cli
    ∧ (resolveConfig fileConfig envConfig cli envApiKey).model
      = c6ClaimModel fileConfig envConfig cli
    ∧ (resolveConfig fileConfig envConfig cli envApiKey).timeoutMs
      = c6ClaimTimeout fileConfig envConfig cli
    ∧ (resolveConfig fileConfig envConfig cli envApiKey).baseUrl
      = c6ClaimBaseUrl fileConfig envConfig

/-! ## `validation.ts`: `normaliseEngineOptions` -/

/-- A JS number as `normaliseEngineOptions` observes it: a finite rational or
one of the non-finite values (`Number.isFinite` rejects the latter three). -/
inductive JNum
  | num (q : ℚ)
  | nan
  | posInf
  | negInf
deriving DecidableEq

/-- `Math.trunc` on a finite JS number: round toward zero. -/
def jsTruncRat (q : ℚ) : Int :=
  if q < 0 then -Rat.floor (-q) else Rat.floor q

structure EngineOptions where
  provider : Provider
  apiKey : Option String := none
  model : Option String := none
  timeoutMs : Option JNum := none
  baseUrl : Option String := none
deriving DecidableEq

structure NormalizedEngineOptions where
  provider : Provider
  apiKey : String
  model : String
  timeoutMs : Int
  baseUrl : Option String
deriving DecidableEq

/-- `normaliseEngineOptions` from `packages/core/src/validation.ts`:

* `options.apiKey?.trim()` falsy: `Missing apiKey` error;
* model: `options.model?.trim() || DEFAULT_MODELS[provider]`, and a falsy
  result is a `Missing model` error;
* timeout: `options.timeoutMs ?? DEFAULT_TIMEOUT_MS`, non-finite or `<= 0` is
  an error, otherwise `Math.trunc`-ed;
* baseUrl: `options.baseUrl?.trim() || undefined`. -/
def normaliseEngineOptions (options : EngineOptions) : Except String NormalizedEngineOptions :=
  let apiKey := jsTrim (options.apiKey.getD "")
  if apiKey = "" then
    .error ("Missing apiKey for provider \"" ++ options.provider.toStr ++ "\"")
  else
    let model :=
      match options.model with
      | some m => if jsTrim m = "" then DEFAULT_MODELS options.provider else jsTrim m
      | none => DEFAULT_MODELS options.provider
    if model = "" then
      .error ("Missing model for provider \"" ++ options.provider.toStr ++ "\"")
    else
      match options.timeoutMs.getD (JNum.num ((DEFAULT_TIMEOUT_MS : Int) : ℚ)) with
      | JNum.num q =>
        if q ≤ 0 then .error "timeoutMs must be a positive number"
        else
          .ok { provider := options.provider, apiKey := apiKey, model := model,
                timeoutMs := jsTruncRat q,
                baseUrl :=
                  match options.baseUrl.map jsTrim with
                  | some b => if b = "" then none else some b
                  | none => none }
      | _ => .error "timeoutMs must be a positive number"

/-- The amended claim C8, written from the claim's words as an independent
function to compare with the embedded `normaliseEngineOptions`: fail on a blank
trimmed key; take the model from the provider-keyed default table when the
given one is absent or blank, failing when no model results; default the
timeout, failing when the resolved value is non-finite or not positive, and
truncate it to an integer; keep the *trimmed* baseUrl when that trim is
non-empty, and return no baseUrl otherwise (the amendment: the original claim
said the non-empty baseUrl is passed through untouched). -/
def c8ClaimNormalise (o : EngineOptions) : Except String NormalizedEngineOptions :=
  let trimmedKey := jsTrim (o.apiKey.getD "")
  let claimModel :=
    match o.model with
    | some m => if jsTrim m = "" then DEFAULT_MODELS o.provider else jsTrim m
    | none => DEFAULT_MODELS o.provider
  if trimmedKey = "" then
    .error ("Missing apiKey for provider \"" ++ o.provider.toStr ++ "\"")
  else if claimModel = "" then
    .error ("Missing model for provider \"" ++ o.provider.toStr ++ "\"")
  else
    match o.timeoutMs.getD (JNum.num ((DEFAULT_TIMEOUT_MS : Int) : ℚ)) with
    | JNum.num q =>
      if q ≤ 0 then .error "timeoutMs must be a positive number"
      else
        .ok { provider := o.provider, apiKey := trimmedKey, model := claimModel,
              timeoutMs := jsTruncRat q,
              baseUrl :=
                match o.baseUrl with
                | some b => if jsTrim b = "" then none else some (jsTrim b)
                | none => none }
    | _ => .error "timeoutMs must be a positive number"

/-! ## `setup.ts`: `buildConfigToPersist` and the persisting tail of `runSetup` -/

/-- `ConfigFileData`: the shape written to the config file. This structure has
exactly the four fields `provider`, `model`, `timeoutMs`, `baseUrl` — there is
no API-key field. -/
structure ConfigFileData where
  provider : Provider
  model : Option String := none
  timeoutMs : Option Int := none
  baseUrl : Option String := none
deriving DecidableEq

/-- `buildConfigToPersist` from `setup.ts` (lines 133-154): always store the
provider; store the trimmed model / baseUrl only when truthy after trimming;
store the timeout when it is a number. -/
def buildConfigToPersist (provider : Provider) (model : Option String)
    (timeoutMs : Option Int) (baseUrl : Option String) : ConfigFileData :=
  { provider := provider,
    model :=
      match model.map jsTrim with
      | some m => if m = "" then none else some m
      | none => none,
    timeoutMs := timeoutMs,
    baseUrl :=
      match baseUrl.map jsTrim with
      | some b => if b = "" then none else some b
      | none => none }

/-- `SetupResult` from `setup.ts`. -/
structure SetupResult where
  ran : Bool
  apiKeySet : Bool
  provider : Provider
  envVarName : String
  apiKey : Option String
  configPath : String
deriving DecidableEq

/-- The data flow of `runSetup` (`setup.ts` lines 209-289) from the accepted
wizard answers to the persisted configuration and the returned `SetupResult`;
the interactive re-ask loops are abstracted to the answer each question
eventually accepted (`provider` validated against the enum, `timeoutMs` a
validated positive integer or skipped), and the optional verification call only
writes informational lines, touching neither value:

* `model` / `baseUrl` / `apiKey` are the trimmed answers, blank meaning absent
  (`modelInput || undefined` etc.);
* the config writer receives exactly `buildConfigToPersist({provider, model,
  timeoutMs, baseUrl})`;
* the `SetupResult` carries the API key (and `apiKeySet = Boolean(apiKey)`),
  the provider's environment-variable name and the config path. -/
def runSetupModel (provider : Provider) (modelAnswer : String) (timeoutMs : Option Int)
    (baseUrlAnswer : String) (apiKeyAnswer : String) (configPath : String) :
    ConfigFileData × SetupResult :=
  let model := if jsTrim modelAnswer = "" then none else some (jsTrim modelAnswer)
  let baseUrl := if jsTrim baseUrlAnswer = "" then none else some (jsTrim baseUrlAnswer)
  let apiKey := if jsTrim apiKeyAnswer = "" then none else some (jsTrim apiKeyAnswer)
  let configToPersist := buildConfigToPersist provider model timeoutMs baseUrl
  (configToPersist,
    { ran := true, apiKeySet := apiKey.isSome, provider := provider,
      envVarName := (KEY_INFO provider).envVar, apiKey := apiKey,
      configPath := configPath })

/-! ## Theorems -/

/-- C3: `detectNoImprovement(a, b, check)` returns false for all `a` and `b`
whenever `check` is true; and with `check` false it returns true if and only if
`a` and `b` are equal after normalizing CR and CRLF line endings to LF and
trimming. (The function itself is modelled from the spec, since its
implementation file is not part of the source snapshot.) -/
theorem detectNoImprovement_spec (a b : String) :
    detectNoImprovement a b true = false
      ∧ (detectNoImprovement a b false = true ↔
          jsTrim (normalizeLineEndings a) = jsTrim (normalizeLineEndings b)) := by
  refine ⟨rfl, ?_⟩
  simp [detectNoImprovement]

/-- C4 (code bug witness): at the failing input of the repository's own test
"json format marks noImprovement false when text changed" — result
`{rewrittenText: "Submit your application."}`, provider `openai`, model
`gpt-4.1-mini`, original text supplied — the object built by the `json` branch
of `formatOutput` carries exactly the keys `rewrittenText`, `explanation`,
`issues`, `provider`, `model`, and in particular no `noImprovement` key, even
though the original text was supplied to the formatter. -/
theorem formatOutput_json_has_no_noImprovement_key :
    ((formatOutputJsonObject { rewrittenText := "Submit your application." }
        Provider.openai "gpt-4.1-mini").map Prod.fst
      = ["rewrittenText", "explanation", "issues", "provider", "model"])
      ∧ (formatOutputJsonObject { rewrittenText := "Submit your application." }
          Provider.openai "gpt-4.1-mini").lookup "noImprovement" = none := by
  exact ⟨rfl, rfl⟩

/-- C9: the configuration `runSetup` hands to the config writer is exactly
`buildConfigToPersist` of the non-secret answers — a record whose type has only
the fields `provider`, `model`, `timeoutMs`, `baseUrl` — so two runs that
differ only in the API-key answer persist identical config data, while the
(trimmed, non-blank) key is returned solely in the `SetupResult`. -/
theorem runSetup_never_persists_api_key (provider : Provider) (modelAnswer : String)
    (timeoutMs : Option Int) (baseUrlAnswer keyAnswer otherKeyAnswer configPath : String) :
    (runSetupModel provider modelAnswer timeoutMs baseUrlAnswer keyAnswer configPath).1
        = (runSetupModel provider modelAnswer timeoutMs baseUrlAnswer otherKeyAnswer
            configPath).1
      ∧ (runSetupModel provider modelAnswer timeoutMs baseUrlAnswer keyAnswer configPath).2.apiKey
        = (if jsTrim keyAnswer = "" then none else some (jsTrim keyAnswer)) :=
  ⟨rfl, rfl⟩

/-- C6 (counterexample): with a config file that sets `provider` to
`anthropic` and no tier setting a model, `resolveConfig` returns the
anthropic default model, not the value of the highest tier that set `model`
(the defaults tier, whose model is the openai default `gpt-4.1-mini`) — so the
claim's plain highest-tier-wins reading fails for `model`. -/
theorem resolveConfig_not_plain_tier_merge :
    (resolveConfig { provider := some .anthropic } {} {} (fun _ => none)).model
        = "claude-3-5-sonnet-latest"
      ∧ c6ClaimModel { provider := some .anthropic } {} {} = "gpt-4.1-mini"
      ∧ ¬ c6ClaimHolds { provider := some .anthropic } {} {} (fun _ => none) := by
  refine ⟨by decide, by decide, fun h => ?_⟩
  exact absurd h.2.1 (by decide)

/-- C6 (amended): `provider`, `timeoutMs` and `baseUrl` follow the strict
defaults → file → environment → CLI override order (highest valid setting
wins) for every combination of tiers; `model` does too whenever the file,
environment or CLI model chain (`fileConfig.model ?? envConfig.model ??
cliOverrides.model`) is truthy, and otherwise the model is the *final merged
provider's* default model rather than the defaults-tier value. -/
theorem resolveConfig_tier_merge (fileConfig envConfig : TierConfig) (cli : CliOverrides)
    (envApiKey : Provider → Option String) :
    (resolveConfig fileConfig envConfig cli envApiKey).provider
        = c6ClaimProvider fileConfig envConfig cli
      ∧ (resolveConfig fileConfig envConfig cli envApiKey).timeoutMs
        = c6ClaimTimeout fileConfig envConfig cli
      ∧ (resolveConfig fileConfig envConfig cli envApiKey).baseUrl
        = c6ClaimBaseUrl fileConfig envConfig
      ∧ (resolveConfig fileConfig envConfig cli envApiKey).model
        = (if jsTruthyOptStr (fileConfig.model <|> envConfig.model <|> cli.model)
           then c6ClaimModel fileConfig envConfig cli
           else DEFAULT_MODELS (c6ClaimProvider fileConfig envConfig cli)) :=
  ⟨rfl, rfl, rfl, rfl⟩

/-- C7: the merged model is the final merged provider's default model exactly
when none of the file, environment or CLI tiers supplied a (truthy) model
value; whenever that chain is truthy the plainly merged model
(CLI over environment over file) is kept — independent of whether a higher
tier changed the provider. -/
theorem resolveConfig_model_default_rule (fileConfig envConfig : TierConfig)
    (cli : CliOverrides) (envApiKey : Provider → Option String) :
    (resolveConfig fileConfig envConfig cli envApiKey).model
      = (if jsTruthyOptStr (fileConfig.model <|> envConfig.model <|> cli.model)
         then c6ClaimModel fileConfig envConfig cli
         else DEFAULT_MODELS ((resolveConfig fileConfig envConfig cli envApiKey).provider)) :=
  rfl

/-- C8 (counterexample): with a whitespace-padded non-empty `baseUrl`,
`normaliseEngineOptions` succeeds but returns the *trimmed* `baseUrl`, not the
supplied value untouched — refuting the claim's "passed through untouched when
non-empty". -/
theorem normaliseEngineOptions_trims_baseUrl :
    normaliseEngineOptions
        { provider := .openai, apiKey := some "sk-test",
          baseUrl := some "  https://example.test/v1  " }
      = Except.ok { provider := .openai, apiKey := "sk-test", model := "gpt-4.1-mini",
                    timeoutMs := 30000, baseUrl := some "https://example.test/v1" }
      ∧ (some "https://example.test/v1" : Option String)
        ≠ some "  https://example.test/v1  " := by
  exact ⟨rfl, by decide⟩

/-- C8 (amended): `normaliseEngineOptions` behaves exactly as the claim states
— failing precisely on a blank trimmed key, a missing model after defaulting,
or a non-finite or non-positive resolved timeout, defaulting the model from
the provider-keyed table and the timeout from the fixed default, truncating the
timeout to an integer — with the baseUrl clause amended: the *trimmed* baseUrl
is kept when non-empty (instead of the untouched value), else it is absent. -/
theorem normaliseEngineOptions_spec (o : EngineOptions) :
    normaliseEngineOptions o = c8ClaimNormalise o := by
  rcases o with ⟨p, key, mdl, tmo, burl⟩
  cases mdl <;> cases burl <;> rcases tmo with _ | (q | _ | _ | _) <;> rfl

/-- C10: the `DEFAULT_MODELS` table has a (non-empty) entry for each of the
three providers, so with a non-blank trimmed API key the `Missing model`
branch of `normaliseEngineOptions` is unreachable: the call either fails with
the invalid-timeout error or succeeds. -/
theorem normaliseEngineOptions_missing_model_unreachable :
    (∀ p : Provider, DEFAULT_MODELS p ≠ "")
      ∧ ∀ o : EngineOptions, jsTrim (o.apiKey.getD "") ≠ "" →
          (normaliseEngineOptions o = Except.error "timeoutMs must be a positive number"
            ∨ ∃ r, normaliseEngineOptions o = Except.ok r) := by
  constructor
  · intro p
    cases p <;> decide
  · rintro ⟨p, key, mdl, tmo, burl⟩ hk
    dsimp only at hk
    simp only [normaliseEngineOptions]
    rw [if_neg hk]
    have hmodel :
        (match mdl with
          | some m => if jsTrim m = "" then DEFAULT_MODELS p else jsTrim m
          | none => DEFAULT_MODELS p) ≠ "" := by
      have hd : DEFAULT_MODELS p ≠ "" := by cases p <;> decide
      cases mdl with
      | none => exact hd
      | some m =>
        dsimp only
        split
        · exact hd
        · assumption
    rw [if_neg hmodel]
    cases htmo : tmo.getD (JNum.num ((DEFAULT_TIMEOUT_MS : Int) : ℚ)) with
    | num q =>
      dsimp only
      split_ifs with hq
      · exact Or.inl rfl
      · exact Or.inr ⟨_, rfl⟩
    | nan => exact Or.inl rfl
    | posInf => exact Or.inl rfl
    | negInf => exact Or.inl rfl

/-- C10 witness: a concrete instance — anthropic provider, non-blank key,
timeout 0 — on which the theorem applies and the only possible error is the
invalid-timeout one. -/
theorem normaliseEngineOptions_missing_model_unreachable_witness :
    jsTrim ((some "ant-test" : Option String).getD "") ≠ ""
      ∧ (normaliseEngineOptions
            { provider := .anthropic, apiKey := some "ant-test",
              timeoutMs := some (JNum.num 0) }
          = Except.error "timeoutMs must be a positive number"
        ∨ ∃ r, normaliseEngineOptions
            { provider := .anthropic, apiKey := some "ant-test",
              timeoutMs := some (JNum.num 0) }
          = Except.ok r) :=
  ⟨by decide,
    normaliseEngineOptions_missing_model_unreachable.2
      { provider := .anthropic, apiKey := some "ant-test", timeoutMs := some (JNum.num 0) }
      (by decide)⟩

/-! ### C5: the diff round-trip -/

/-- Keep an added or unchanged diff entry (the `+ ` / `  ` lines). -/
def keepAdd : DiffTag × String → Option String
  | (DiffTag.add, s) => some s
  | (DiffTag.same, s) => some s
  | (DiffTag.del, _) => none

/-- Keep a removed or unchanged diff entry (the `- ` / `  ` lines). -/
def keepDel : DiffTag × String → Option String
  | (DiffTag.del, s) => some s
  | (DiffTag.same, s) => some s
  | (DiffTag.add, _) => none

/-- A rendered line prefixed `+ ` or `  `, with the two-character prefix
stripped. -/
def takeRewLine (s : String) : Option String :=
  match s.data with
  | '+' :: ' ' :: rest => some ⟨rest⟩
  | ' ' :: ' ' :: rest => some ⟨rest⟩
  | _ => none

/-- A rendered line prefixed `- ` or `  `, with the two-character prefix
stripped. -/
def takeOrigLine (s : String) : Option String :=
  match s.data with
  | '-' :: ' ' :: rest => some ⟨rest⟩
  | ' ' :: ' ' :: rest => some ⟨rest⟩
  | _ => none

theorem takeRewLine_render : ∀ x, takeRewLine (renderDiffLine x) = keepAdd x
  | (DiffTag.same, ⟨_⟩) => rfl
  | (DiffTag.add, ⟨_⟩) => rfl
  | (DiffTag.del, ⟨_⟩) => rfl

theorem takeOrigLine_render : ∀ x, takeOrigLine (renderDiffLine x) = keepDel x
  | (DiffTag.same, ⟨_⟩) => rfl
  | (DiffTag.add, ⟨_⟩) => rfl
  | (DiffTag.del, ⟨_⟩) => rfl

theorem take_sub_getD {α} (l : List α) (d : α) (j : Nat) (h0 : 0 < j) (h : j ≤ l.length) :
    l.take j = l.take (j - 1) ++ [l.getD (j - 1) d] := by
  have h1 : j - 1 < l.length := by omega
  have h2 : j - 1 + 1 = j := by omega
  conv_lhs => rw [← h2]
  rw [List.take_succ]
  simp [List.getD_eq_getElem?_getD, List.getElem?_eq_getElem h1]

/-- The backtrack of `diffLines` reconstructs both inputs, whatever the LCS
values are: for `i ≤ |a|` and `j ≤ |b|`, the added/unchanged entries of
`diffBack a b i j` are exactly the first `j` lines of `b`, and the
removed/unchanged entries are exactly the first `i` lines of `a`. -/
theorem diffBack_reconstruct (a b : List String) :
    ∀ n i j, i + j = n → i ≤ a.length → j ≤ b.length →
      (diffBack a b i j).filterMap keepAdd = b.take j
        ∧ (diffBack a b i j).filterMap keepDel = a.take i := by
  intro n
  induction n using Nat.strong_induction_on with
  | _ n ih =>
    intro i j hn hi hj
    unfold diffBack
    split_ifs with h0 h1 h2
    · obtain ⟨hi0, hj0⟩ := h0
      subst hi0
      subst hj0
      simp
    · obtain ⟨hip, hjp, heq⟩ := h1
      obtain ⟨IH1, IH2⟩ :=
        ih (i - 1 + (j - 1)) (by omega) (i - 1) (j - 1) rfl (by omega) (by omega)
      constructor
      · rw [List.filterMap_append, IH1, take_sub_getD b "" j hjp hj, heq]
        simp [keepAdd]
      · rw [List.filterMap_append, IH2, take_sub_getD a "" i hip hi]
        simp [keepDel]
    · obtain ⟨hjp, -⟩ := h2
      obtain ⟨IH1, IH2⟩ := ih (i + (j - 1)) (by omega) i (j - 1) rfl hi (by omega)
      constructor
      · rw [List.filterMap_append, IH1, take_sub_getD b "" j hjp hj]
        simp [keepAdd]
      · rw [List.filterMap_append, IH2]
        simp [keepDel]
    · have hip : 0 < i := by
        rcases Nat.eq_zero_or_pos i with h3 | h3
        · exact absurd ⟨Nat.pos_of_ne_zero fun hj0 => h0 ⟨h3, hj0⟩, Or.inl h3⟩ h2
        · exact h3
      obtain ⟨IH1, IH2⟩ := ih (i - 1 + j) (by omega) (i - 1) j rfl (by omega) hj
      constructor
      · rw [List.filterMap_append, IH1]
        simp [keepAdd]
      · rw [List.filterMap_append, IH2, take_sub_getD a "" i hip hi]
        simp [keepDel]

/-- C5: for all strings, the diff produced by `diffLines` reconstructs both
sides — taking, in order, the lines it prefixed with `+ ` and `  ` (stripping
the two-character prefix) yields exactly the lines of `rewritten`, and the
lines prefixed with `- ` and `  ` yield exactly the lines of `original`,
including empty inputs and fully disjoint inputs. -/
theorem diffLines_roundtrip (original rewritten : String) :
    (diffLinesList original rewritten).filterMap takeRewLine = jsSplitLines rewritten
      ∧ (diffLinesList original rewritten).filterMap takeOrigLine = jsSplitLines original := by
  obtain ⟨h1, h2⟩ :=
    diffBack_reconstruct (jsSplitLines original) (jsSplitLines rewritten)
      ((jsSplitLines original).length + (jsSplitLines rewritten).length)
      (jsSplitLines original).length (jsSplitLines rewritten).length rfl le_rfl le_rfl
  have hrew : (takeRewLine ∘ renderDiffLine) = keepAdd := funext takeRewLine_render
  have horig : (takeOrigLine ∘ renderDiffLine) = keepDel := funext takeOrigLine_render
  constructor
  · simp only [diffLinesList, List.filterMap_map, hrew, h1, List.take_length]
  · simp only [diffLinesList, List.filterMap_map, horig, h2, List.take_length]

/-! ### C1/C2 support lemmas -/

theorem normChars_no_cr (l : List Char) : '\r' ∉ normChars l := by
  induction l using normChars.induct <;> simp_all [normChars] <;>
    (intro e; subst e; simp_all)

theorem normChars_of_no_cr (l : List Char) (h : '\r' ∉ l) : normChars l = l := by
  induction l using normChars.induct <;> simp_all [normChars]

theorem normChars_idem (l : List Char) : normChars (normChars l) = normChars l :=
  normChars_of_no_cr _ (normChars_no_cr l)

theorem normalizeLineEndings_idem (s : String) :
    normalizeLineEndings (normalizeLineEndings s) = normalizeLineEndings s := by
  show (⟨normChars (normChars s.data)⟩ : String) = ⟨normChars s.data⟩
  rw [normChars_idem]

theorem firstSlashToken_normalize (s : String) :
    firstSlashToken (normalizeLineEndings s) = firstSlashToken s := by
  unfold firstSlashToken
  rw [normalizeLineEndings_idem]

theorem normChars_eq_self_of_no_nl (l : List Char) (h : '\n' ∉ normChars l) :
    normChars l = l := by
  induction l using normChars.induct <;> simp_all [normChars]

theorem isMultiline_eq_false_iff (s : String) : isMultiline s = false ↔ '\n' ∉ s.data := by
  simp [isMultiline, List.contains, List.elem_eq_mem]

theorem takeWhile_ne_nl_eq_self (l : List Char) (h : '\n' ∉ l) :
    l.takeWhile (fun c => c != '\n') = l := by
  induction l with
  | nil => rfl
  | cons c cs ih =>
    simp only [List.mem_cons, not_or] at h
    have hc : (c != '\n') = true := bne_iff_ne.mpr fun e => h.1 e.symm
    simp [List.takeWhile_cons, hc, ih h.2]

theorem norm_single_line (s : String) (hm : isMultiline (normalizeLineEndings s) = false) :
    normalizeLineEndings s = s ∧ '\n' ∉ s.data := by
  have h1 : '\n' ∉ (normalizeLineEndings s).data := (isMultiline_eq_false_iff _).mp hm
  have h2 : normChars s.data = s.data := normChars_eq_self_of_no_nl _ h1
  constructor
  · show (⟨normChars s.data⟩ : String) = s
    rw [h2]
  · rw [show (normalizeLineEndings s).data = normChars s.data from rfl, h2] at h1
    exact h1

theorem firstLineStr_of_no_nl (s : String) (h : '\n' ∉ s.data) : firstLineStr s = s := by
  show (⟨s.data.takeWhile (fun c => c != '\n')⟩ : String) = s
  rw [takeWhile_ne_nl_eq_self s.data h]

theorem strStartsWith_slash_iff (s : String) :
    strStartsWith s "/" = true ↔ ∃ t, s.data = '/' :: t := by
  have hd : ("/" : String).data = ['/'] := rfl
  rw [strStartsWith, List.isPrefixOf_iff_prefix, hd]
  constructor
  · rintro ⟨t, ht⟩
    exact ⟨t, ht.symm⟩
  · rintro ⟨t, ht⟩
    exact ⟨t, ht.symm⟩

theorem jsTrimEndL_eq_rdropWhile (l : List Char) : jsTrimEndL l = List.rdropWhile isJsWs l := rfl

theorem jsTrimEndL_slash {l : List Char} (hl : ∃ t, l = '/' :: t) :
    ∃ t, jsTrimEndL l = '/' :: t := by
  obtain ⟨t, rfl⟩ := hl
  have hne : jsTrimEndL ('/' :: t) ≠ [] := by
    rw [jsTrimEndL_eq_rdropWhile]
    intro hnil
    have := (List.rdropWhile_eq_nil_iff.mp hnil) '/' (List.mem_cons_self _ _)
    simp [isJsWs] at this
  have hpre : jsTrimEndL ('/' :: t) <+: '/' :: t := by
    rw [jsTrimEndL_eq_rdropWhile]
    exact List.rdropWhile_prefix _ _
  obtain ⟨u, hu⟩ := hpre
  cases he : jsTrimEndL ('/' :: t) with
  | nil => exact absurd he hne
  | cons r rs =>
    rw [he] at hu
    have hr : r = '/' := by
      have := congrArg (fun x => x.head?) hu
      simpa using this
    subst hr
    exact ⟨rs, rfl⟩

theorem slash_of_jsTrimEndL {l : List Char} (h : ∃ t, jsTrimEndL l = '/' :: t) :
    ∃ t, l = '/' :: t := by
  obtain ⟨t, ht⟩ := h
  have hpre : jsTrimEndL l <+: l := by
    rw [jsTrimEndL_eq_rdropWhile]
    exact List.rdropWhile_prefix _ _
  obtain ⟨u, hu⟩ := hpre
  rw [ht] at hu
  exact ⟨t ++ u, by rw [← hu, List.cons_append]⟩

/-- The claim C1 command-path condition: the first line of the normalized
input, after left-trim, starts with `/`, and either the input is single-line
or the lowercased word after the slash (the first slash token) is a known
command name. -/
def claimSlashCommandCond (inputText : String) : Bool :=
  strStartsWith (jsTrimStart (firstLineStr (normalizeLineEndings inputText))) "/" &&
    (!isMultiline (normalizeLineEndings inputText)
      || (firstSlashToken (normalizeLineEndings inputText)).any isKnownChatCommand)

theorem classify_command_of_cond (inputText : String) (h : jsTrim inputText ≠ "")
    (hc : claimSlashCommandCond inputText = true) :
    classifySubmittedInput inputText =
      SubmitAction.command
        (if isMultiline (normalizeLineEndings inputText)
         then jsTrim (firstLineStr (normalizeLineEndings inputText))
         else jsTrim inputText) := by
  simp only [claimSlashCommandCond, Bool.and_eq_true, Bool.or_eq_true] at hc
  obtain ⟨hc1, hc2⟩ := hc
  rw [firstSlashToken_normalize] at hc2
  simp only [classifySubmittedInput]
  rw [if_neg h, firstSlashToken_normalize]
  cases hopt : firstSlashToken inputText with
  | some tok =>
    rw [hopt] at hc2
    dsimp only
    rcases hc2 with hm | hk
    · have hm' : isMultiline (normalizeLineEndings inputText) = false := by
        simpa using hm
      rw [hm']
      simp
    · have hk' : isKnownChatCommand tok = true := by simpa [Option.any] using hk
      rw [hk']
      simp
  | none =>
    rw [hopt] at hc2
    have hm : isMultiline (normalizeLineEndings inputText) = false := by
      rcases hc2 with hm | hk
      · simpa using hm
      · simp [Option.any] at hk
    obtain ⟨hnorm, hnl⟩ := norm_single_line inputText hm
    dsimp only
    rw [hm]
    have hstart : strStartsWith (jsTrim inputText) "/" = true := by
      rw [hnorm, firstLineStr_of_no_nl _ hnl] at hc1
      obtain ⟨t, ht⟩ := (strStartsWith_slash_iff _).mp hc1
      have hres : ∃ u, jsTrimEndL (jsTrimStartL inputText.data) = '/' :: u :=
        jsTrimEndL_slash ⟨t, ht⟩
      exact (strStartsWith_slash_iff _).mpr hres
    rw [hstart]
    simp

theorem classify_payload_of_not_cond (inputText : String) (h : jsTrim inputText ≠ "")
    (hc : claimSlashCommandCond inputText = false) :
    classifySubmittedInput inputText = SubmitAction.payload (jsTrim inputText) := by
  simp only [classifySubmittedInput]
  rw [if_neg h, firstSlashToken_normalize]
  cases hopt : firstSlashToken inputText with
  | some tok =>
    have hc1 : strStartsWith (jsTrimStart (firstLineStr (normalizeLineEndings inputText))) "/"
        = true := by
      have hopt2 : firstSlashToken (normalizeLineEndings inputText) = some tok := by
        rw [firstSlashToken_normalize]
        exact hopt
      unfold firstSlashToken at hopt2
      rw [normalizeLineEndings_idem] at hopt2
      by_contra hns
      rw [Bool.not_eq_true] at hns
      rw [if_neg (by rw [hns]; exact Bool.false_ne_true)] at hopt2
      simp at hopt2
    have hc2 : (!isMultiline (normalizeLineEndings inputText)
        || (firstSlashToken (normalizeLineEndings inputText)).any isKnownChatCommand)
        = false := by
      simp only [claimSlashCommandCond, hc1, Bool.true_and] at hc
      exact hc
    rw [firstSlashToken_normalize, hopt] at hc2
    simp only [Option.any] at hc2
    dsimp only
    rw [hc2]
    simp
  | none =>
    dsimp only
    by_cases hguard : (!isMultiline (normalizeLineEndings inputText)
        && strStartsWith (jsTrim inputText) "/") = true
    · exfalso
      simp only [Bool.and_eq_true, Bool.not_eq_true'] at hguard
      obtain ⟨hm, hs⟩ := hguard
      obtain ⟨hnorm, hnl⟩ := norm_single_line inputText hm
      have hstart : strStartsWith (jsTrimStart (firstLineStr (normalizeLineEndings inputText)))
          "/" = true := by
        rw [hnorm, firstLineStr_of_no_nl _ hnl]
        obtain ⟨t, ht⟩ := (strStartsWith_slash_iff _).mp hs
        have hres := slash_of_jsTrimEndL (l := jsTrimStartL inputText.data) ⟨t, ht⟩
        exact (strStartsWith_slash_iff _).mpr hres
      simp only [claimSlashCommandCond, hstart, hm, Bool.true_and] at hc
      simp at hc
    · rw [if_neg hguard]

/-- C1: for every submitted input with non-empty trimmed text, if the first
line of the normalized input (after left-trim) starts with `/` and either the
input is single-line or the lowercased word after the slash is a known command
name, then only that first line (trimmed; the whole trimmed input when
single-line) is handed to the command processor and its messages come back as
`system` events together with its quit flag; otherwise the entire trimmed text
is handled as rewrite payload. In particular `"/help"` and
`"/help\nmore text"` take the command path while `"/madeup\nmore text"` and
`"plain\n/help"` take the payload path. -/
theorem handleSubmittedInput_classification (inputText : String) (state : ChatState)
    (env : SessionEnv) (h : jsTrim inputText ≠ "") :
    (claimSlashCommandCond inputText = true →
        handleSubmittedInputModel inputText state env =
          (let line := if isMultiline (normalizeLineEndings inputText)
              then jsTrim (firstLineStr (normalizeLineEndings inputText))
              else jsTrim inputText
           let c := applyChatCommand line state
           ⟨c.state, c.messages.map (fun m => ⟨EventKind.system, m⟩), c.quit⟩))
      ∧ (claimSlashCommandCond inputText = false →
        handleSubmittedInputModel inputText state env
          = handlePayload (jsTrim inputText) state env) := by
  constructor
  · intro hc
    simp only [handleSubmittedInputModel, classify_command_of_cond inputText h hc]
  · intro hc
    simp only [handleSubmittedInputModel, classify_payload_of_not_cond inputText h hc]

def sampleState : ChatState :=
  { provider := .openai, model := "gpt-4.1-mini", timeoutMs := 30000,
    mode := .pageBody, explain := false, check := false, diff := false,
    json := false, spinner := true, copy := false, tokens := false }

def sampleEnv : SessionEnv :=
  { resolveApiKey1 := fun _ => none,
    setupRan := false,
    setupLines := [],
    refreshedConfig := { provider := .openai, model := "gpt-4.1-mini", timeoutMs := 30000 },
    resolveApiKey2 := fun _ => none,
    rewriteImpl := fun _ _ => Except.error "network disabled",
    outputFormatter := fun _ => "",
    clipboardWriter := fun _ => false }

/-- C1 witness: the multi-line input `"/quit\nextra"` has a recognized first
slash token, so only its first line `"/quit"` reaches the command processor,
whose message becomes one `system` event with the quit flag set. -/
theorem handleSubmittedInput_classification_witness :
    jsTrim "/quit\nextra" ≠ ""
      ∧ claimSlashCommandCond "/quit\nextra" = true
      ∧ handleSubmittedInputModel "/quit\nextra" sampleState sampleEnv
        = ⟨sampleState, [⟨EventKind.system, "Exiting interactive mode."⟩], true⟩ := by
  refine ⟨by decide, by decide, ?_⟩
  rw [(handleSubmittedInput_classification "/quit\nextra" sampleState sampleEnv
    (by decide)).1 (by decide)]
  rfl

/-- The missing-key outcome of the payload path: when the API key does not
resolve before nor after the setup offer, `handlePayload` returns the
(possibly refreshed) state, the setup offer's non-blank lines as `system`
events followed by the missing-key `error` events, and does not exit. -/
theorem handlePayload_missing_key (text : String) (state : ChatState) (env : SessionEnv)
    (hk1 : jsTruthyOptStr (env.resolveApiKey1 state.provider) = false)
    (hk2 : jsTruthyOptStr (env.resolveApiKey2 state.provider) = false) :
    handlePayload text state env =
      ⟨(if env.setupRan && decide (env.refreshedConfig.provider = state.provider) then
          { state with
              model := env.refreshedConfig.model,
              timeoutMs := env.refreshedConfig.timeoutMs,
              baseUrl := env.refreshedConfig.baseUrl }
        else state),
        ((env.setupLines.filter (fun l => jsTrim l != "")).map
            (fun l => (⟨EventKind.system, l⟩ : ChatSessionEvent)))
          ++ missingKeyErrorEvents state.provider,
        false⟩ := by
  simp only [handlePayload]
  rw [if_neg (by rw [hk1]; exact Bool.false_ne_true)]
  split
  · rw [if_neg (by simp [hk2])]
  · rw [if_neg (by simp [hk2])]

theorem missingKey_events_envvar (p : Provider) :
    ∃ e ∈ missingKeyErrorEvents p,
      e.kind = EventKind.error ∧ containsSubstr e.text (KEY_INFO p).envVar = true := by
  cases p <;> decide

theorem missingKey_events_export (p : Provider) :
    ∃ e ∈ missingKeyErrorEvents p,
      e.kind = EventKind.error ∧ containsSubstr e.text "export" = true := by
  cases p <;> decide

/-- C2: on the payload path, when no API key resolves for the session's
current provider before the setup offer nor after it, `handleSubmittedInput`
returns with `shouldExit = false`, its result is unchanged under any
replacement of the rewrite dependency (it never invokes it), and its events
include `error` events containing the provider's environment-variable name and
an `export` instruction line. -/
theorem handleSubmittedInput_missing_key (inputText : String) (state : ChatState)
    (env : SessionEnv)
    (hpay : classifySubmittedInput inputText = SubmitAction.payload (jsTrim inputText))
    (hk1 : jsTruthyOptStr (env.resolveApiKey1 state.provider) = false)
    (hk2 : jsTruthyOptStr (env.resolveApiKey2 state.provider) = false) :
    (handleSubmittedInputModel inputText state env).shouldExit = false
      ∧ (∀ f, handleSubmittedInputModel inputText state { env with rewriteImpl := f }
          = handleSubmittedInputModel inputText state env)
      ∧ (∃ e ∈ (handleSubmittedInputModel inputText state env).events,
          e.kind = EventKind.error
            ∧ containsSubstr e.text (KEY_INFO state.provider).envVar = true)
      ∧ (∃ e ∈ (handleSubmittedInputModel inputText state env).events,
          e.kind = EventKind.error ∧ containsSubstr e.text "export" = true) := by
  have hresult : handleSubmittedInputModel inputText state env =
      ⟨(if env.setupRan && decide (env.refreshedConfig.provider = state.provider) then
          { state with
              model := env.refreshedConfig.model,
              timeoutMs := env.refreshedConfig.timeoutMs,
              baseUrl := env.refreshedConfig.baseUrl }
        else state),
        ((env.setupLines.filter (fun l => jsTrim l != "")).map
            (fun l => (⟨EventKind.system, l⟩ : ChatSessionEvent)))
          ++ missingKeyErrorEvents state.provider,
        false⟩ := by
    simp only [handleSubmittedInputModel, hpay]
    exact handlePayload_missing_key (jsTrim inputText) state env hk1 hk2
  refine ⟨by rw [hresult], ?_, ?_, ?_⟩
  · intro f
    have hother : handleSubmittedInputModel inputText state { env with rewriteImpl := f } =
        ⟨(if env.setupRan && decide (env.refreshedConfig.provider = state.provider) then
            { state with
                model := env.refreshedConfig.model,
                timeoutMs := env.refreshedConfig.timeoutMs,
                baseUrl := env.refreshedConfig.baseUrl }
          else state),
          ((env.setupLines.filter (fun l => jsTrim l != "")).map
              (fun l => (⟨EventKind.system, l⟩ : ChatSessionEvent)))
            ++ missingKeyErrorEvents state.provider,
          false⟩ := by
      simp only [handleSubmittedInputModel, hpay]
      exact handlePayload_missing_key (jsTrim inputText) state { env with rewriteImpl := f }
        hk1 hk2
    rw [hother, hresult]
  · obtain ⟨e, he, hke, hsub⟩ := missingKey_events_envvar state.provider
    refine ⟨e, ?_, hke, hsub⟩
    rw [hresult]
    exact List.mem_append_right _ he
  · obtain ⟨e, he, hke, hsub⟩ := missingKey_events_export state.provider
    refine ⟨e, ?_, hke, hsub⟩
    rw [hresult]
    exact List.mem_append_right _ he

/-- C2 witness: the payload input `"hello"` against an environment in which no
API key resolves and the setup offer does not run. -/
theorem handleSubmittedInput_missing_key_witness :
    classifySubmittedInput "hello" = SubmitAction.payload (jsTrim "hello")
      ∧ (handleSubmittedInputModel "hello" sampleState sampleEnv).shouldExit = false
      ∧ (∃ e ∈ (handleSubmittedInputModel "hello" sampleState sampleEnv).events,
          e.kind = EventKind.error
            ∧ containsSubstr e.text (KEY_INFO sampleState.provider).envVar = true)
      ∧ (∃ e ∈ (handleSubmittedInputModel "hello" sampleState sampleEnv).events,
          e.kind = EventKind.error ∧ containsSubstr e.text "export" = true) :=
  ⟨by decide,
    (handleSubmittedInput_missing_key "hello" sampleState sampleEnv
      (by decide) (by decide) (by decide)).1,
    (handleSubmittedInput_missing_key "hello" sampleState sampleEnv
      (by decide) (by decide) (by decide)).2.2.1,
    (handleSubmittedInput_missing_key "hello" sampleState sampleEnv
      (by decide) (by decide) (by decide)).2.2.2⟩
